import Mathlib

/-
Shallow embedding of the alchemy-logging C++ core (src/include/logger.h,
src/src/logger.cpp) together with proofs about the claims of its
natural-language specification.  Machine integers that can never overflow in
the source (unsigned indent counters, enum ordinals) are modelled as Nat;
C++ exceptions are modelled with Except / an explicit error component;
std::map keyed by thread id is modelled as a partial function from Nat.
-/

namespace Alog

/-- The severity enum from logger.h (enum ELogLevels), values off = 0 up to
debug4 = 10. -/
inductive ELogLevels where
  | off
  | fatal
  | error
  | warning
  | info
  | trace
  | debug
  | debug1
  | debug2
  | debug3
  | debug4
deriving DecidableEq, Repr

/-- The underlying integer value of the C++ enum, used by the comparison
operators on ELogLevels. -/
def ELogLevels.ord : ELogLevels → Nat
  | .off => 0
  | .fatal => 1
  | .error => 2
  | .warning => 3
  | .info => 4
  | .trace => 5
  | .debug => 6
  | .debug1 => 7
  | .debug2 => 8
  | .debug3 => 9
  | .debug4 => 10

/-- LevelToHumanString from logger.cpp: the lowercase full-length name table.
The out-of-range fallback branch of the C++ code is unreachable here because
the Lean enum is exact. -/
def LevelToHumanString : ELogLevels → String
  | .off => "off"
  | .fatal => "fatal"
  | .error => "error"
  | .warning => "warning"
  | .info => "info"
  | .trace => "trace"
  | .debug => "debug"
  | .debug1 => "debug1"
  | .debug2 => "debug2"
  | .debug3 => "debug3"
  | .debug4 => "debug4"

/-- The 4-character display strings used by operator<< on ELogLevels in
logger.cpp (the header rendering of a level). -/
def levelDisplayString : ELogLevels → String
  | .off => "OFF "
  | .fatal => "FATL"
  | .error => "ERRR"
  | .warning => "WARN"
  | .info => "INFO"
  | .trace => "TRCE"
  | .debug => "DBUG"
  | .debug1 => "DBG1"
  | .debug2 => "DBG2"
  | .debug3 => "DBG3"
  | .debug4 => "DBG4"

/-- The three distinct exception sites of the core, named as in the spec:
ParseLevel throws on an unrecognized level name (invalidLevelSpec),
parseFilterSpec throws on a token that does not split into two parts
(invalidFilterSpec), and filter throws when asked to log at level off
(loggingToOffDisallowed).  In C++ all three are std::runtime_error with
distinct messages. -/
inductive LogErr where
  | invalidLevelSpec
  | invalidFilterSpec
  | loggingToOffDisallowed
deriving DecidableEq, Repr

/-- ParseLevel from logger.cpp: the if-else chain over the 11 lowercase
names; any other string throws (modelled as Except.error). -/
def ParseLevel (s : String) : Except LogErr ELogLevels :=
  if s = "off" then .ok .off
  else if s = "fatal" then .ok .fatal
  else if s = "error" then .ok .error
  else if s = "warning" then .ok .warning
  else if s = "info" then .ok .info
  else if s = "trace" then .ok .trace
  else if s = "debug" then .ok .debug
  else if s = "debug1" then .ok .debug1
  else if s = "debug2" then .ok .debug2
  else if s = "debug3" then .ok .debug3
  else if s = "debug4" then .ok .debug4
  else .error .invalidLevelSpec

/-- Decidable equality on Except results, so that witnesses can be settled
by evaluation. -/
instance {ε α : Type} [DecidableEq ε] [DecidableEq α] :
    DecidableEq (Except ε α)
  | .ok a, .ok b =>
    if h : a = b then isTrue (by rw [h]) else isFalse (by simp [h])
  | .ok _, .error _ => isFalse (by simp)
  | .error _, .ok _ => isFalse (by simp)
  | .error e, .error f =>
    if h : e = f then isTrue (by rw [h]) else isFalse (by simp [h])

/-- The 11 recognized level names, in enum order. -/
def levelNames : List String :=
  ["off", "fatal", "error", "warning", "info", "trace", "debug",
   "debug1", "debug2", "debug3", "debug4"]

/-- Worker for split: consumes the character list, accumulating the current
field in reverse.  Mirrors the std::getline loop of logger.cpp: a delimiter
emits the current field, and when the delimiter is the last character the
subsequent getline fails at end of stream, so no trailing empty field is
emitted. -/
def splitAux (d : Char) : List Char → List Char → List String
  | [], acc => [String.mk acc.reverse]
  | c :: cs, acc =>
    if c = d then
      if cs.isEmpty then [String.mk acc.reverse]
      else String.mk acc.reverse :: splitAux d cs []
    else splitAux d cs (c :: acc)

/-- split from logger.cpp (the anonymous-namespace getline-based splitter).
On the empty string the first getline fails immediately, yielding no
fields. -/
def split (s : String) (d : Char) : List String :=
  match s.data with
  | [] => []
  | cs => splitAux d cs []

/-- FilterMap from logger.h: std::unordered_map from channel name to level,
modelled as an association list with unique keys maintained by mapInsert. -/
abbrev FilterMap := List (String × ELogLevels)

/-- Lookup in a FilterMap (std::unordered_map::find). -/
def lookupFilter : FilterMap → String → Option ELogLevels
  | [], _ => none
  | (k, v) :: rest, c => if k = c then some v else lookupFilter rest c

/-- Insertion or overwrite in a FilterMap (the C++ out[key] = value). -/
def mapInsert : FilterMap → String → ELogLevels → FilterMap
  | [], k, v => [(k, v)]
  | (k0, v0) :: rest, k, v =>
    if k0 = k then (k0, v) :: rest else (k0, v0) :: mapInsert rest k v

/-- The loop body of parseFilterSpec: each comma token must split on a colon
into exactly two parts; the second part is parsed as a level; any other
shape throws invalidFilterSpec. -/
def parseTokens : List String → FilterMap → Except LogErr FilterMap
  | [], acc => .ok acc
  | tok :: rest, acc =>
    match split tok ':' with
    | [ch, lv] =>
      match ParseLevel lv with
      | .ok l => parseTokens rest (mapInsert acc ch l)
      | .error e => .error e
    | _ => .error .invalidFilterSpec

/-- parseFilterSpec from logger.cpp.  Note the C++ short-circuit for the
empty spec returns FilterMap constructed from one value-initialized pair,
that is a map holding the single entry from the empty channel name to level
off. -/
def parseFilterSpec (spec : String) : Except LogErr FilterMap :=
  if spec = "" then .ok [("", ELogLevels.off)]
  else parseTokens (split spec ',') []

/-- A JSON scalar value, sufficient for the metadata maps manipulated by the
core (strings and unsigned numbers; richer value shapes are orthogonal to
every claim). -/
inductive JsonVal where
  | str : String → JsonVal
  | num : Nat → JsonVal
deriving DecidableEq, Repr

/-- A JSON object, modelled as an association list of key/value pairs with
unique keys maintained by objInsert (nlohmann json objects are keyed maps). -/
abbrev JsonObj := List (String × JsonVal)

/-- Insertion or overwrite into a JSON object (the C++ j[key] = value). -/
def objInsert : JsonObj → String → JsonVal → JsonObj
  | [], k, v => [(k, v)]
  | (k0, v0) :: rest, k, v =>
    if k0 = k then (k0, v) :: rest else (k0, v0) :: objInsert rest k v

/-- Key lookup in a JSON object. -/
def jsonLookup : JsonObj → String → Option JsonVal
  | [], _ => none
  | (k0, v0) :: rest, k => if k0 = k then some v0 else jsonLookup rest k

/-- JSON string escaping for the characters that matter to line integrity
and quoting; other characters pass through. -/
def escapeChar (c : Char) : String :=
  if c = '\"' then "\\\""
  else if c = '\\' then "\\\\"
  else if c = '\n' then "\\n"
  else String.singleton c

/-- Escape every character of a string for JSON serialization. -/
def escapeString (s : String) : String :=
  String.join (s.data.map escapeChar)

/-- Serialize one JSON value (nlohmann dump of a scalar). -/
def dumpVal : JsonVal → String
  | .str s => "\"" ++ escapeString s ++ "\""
  | .num n => toString n

/-- Serialize a JSON object onto a single line (nlohmann json::dump). -/
def dumpJson (o : JsonObj) : String :=
  "\x7b" ++
    String.intercalate ","
      (o.map (fun kv => "\"" ++ escapeString kv.1 ++ "\":" ++ dumpVal kv.2)) ++
  "\x7d"

/-- CLogEntry from logger.h: the immutable snapshot built at log time.
The thread id is modelled as a Nat. -/
structure CLogEntry where
  channel : String
  level : ELogLevels
  message : String
  timestamp : String
  serviceName : String
  nIndent : Nat
  threadId : Nat
  mapData : JsonObj
deriving DecidableEq, Repr

/-- The possible concrete formatter classes installed in m_formatter. -/
inductive FormatterKind where
  | std
  | json
deriving DecidableEq, Repr

/-- The mutable state of CLogChannelRegistrySingleton from logger.h.  Sinks
are modelled as opaque handles; the two std::map fields keyed by thread id
are modelled as partial functions from Nat. -/
structure CLogChannelRegistrySingleton where
  m_filters : FilterMap
  m_defaultLevel : ELogLevels
  m_doThreadLog : Bool
  m_doMetadata : Bool
  m_serviceName : String
  m_sinks : List Nat
  m_formatter : Option FormatterKind
  m_indents : Nat → Option Nat
  m_metadata : Nat → Option JsonObj

/-- The registry state right after instance() first constructs it: the
private constructor zero-initializes the fields and instance() installs the
standard formatter. -/
def initialRegistry : CLogChannelRegistrySingleton where
  m_filters := []
  m_defaultLevel := .off
  m_doThreadLog := false
  m_doMetadata := false
  m_serviceName := ""
  m_sinks := []
  m_formatter := some .std
  m_indents := fun _ => none
  m_metadata := fun _ => none

namespace CLogChannelRegistrySingleton

/-- threadIDEnabled accessor from logger.h. -/
def threadIDEnabled (st : CLogChannelRegistrySingleton) : Bool :=
  st.m_doThreadLog

/-- getServiceName accessor from logger.h. -/
def getServiceName (st : CLogChannelRegistrySingleton) : String :=
  st.m_serviceName

/-- setupFilters from logger.cpp.  The C++ body first assigns m_filters from
parseFilterSpec and only then parses the default level, so a throw from
ParseLevel happens after the filter table was already replaced; the pair
returned here is the raised error (if any) together with the state as left
behind by the call. -/
def setupFilters (st : CLogChannelRegistrySingleton)
    (filterSpec defaultLevelSpec : String) :
    Option LogErr × CLogChannelRegistrySingleton :=
  match parseFilterSpec filterSpec with
  | .error e => (some e, st)
  | .ok fm =>
    match ParseLevel defaultLevelSpec with
    | .error e => (some e, { st with m_filters := fm })
    | .ok lvl => (none, { st with m_filters := fm, m_defaultLevel := lvl })

/-- The configured level used by filter: the table entry for the channel
when present, otherwise the default level. -/
def configuredLevel (st : CLogChannelRegistrySingleton) (ch : String) :
    ELogLevels :=
  (lookupFilter st.m_filters ch).getD st.m_defaultLevel

/-- filter from logger.cpp: level off throws, otherwise the decision is the
enum comparison configured-level >= message-level. -/
def filter (st : CLogChannelRegistrySingleton) (ch : String)
    (lvl : ELogLevels) : Except LogErr Bool :=
  if lvl = .off then .error .loggingToOffDisallowed
  else .ok (decide ((st.configuredLevel ch).ord ≥ lvl.ord))

/-- addSink from logger.cpp: appends the sink handle. -/
def addSink (st : CLogChannelRegistrySingleton) (sink : Nat) :
    CLogChannelRegistrySingleton :=
  { st with m_sinks := st.m_sinks ++ [sink] }

/-- setFormatter from logger.cpp. -/
def setFormatter (st : CLogChannelRegistrySingleton) (f : FormatterKind) :
    CLogChannelRegistrySingleton :=
  { st with m_formatter := some f }

/-- enableThreadID from logger.cpp. -/
def enableThreadID (st : CLogChannelRegistrySingleton) :
    CLogChannelRegistrySingleton :=
  { st with m_doThreadLog := true }

/-- disableThreadID from logger.cpp. -/
def disableThreadID (st : CLogChannelRegistrySingleton) :
    CLogChannelRegistrySingleton :=
  { st with m_doThreadLog := false }

/-- setServiceName from logger.cpp. -/
def setServiceName (st : CLogChannelRegistrySingleton) (name : String) :
    CLogChannelRegistrySingleton :=
  { st with m_serviceName := name }

/-- addIndent from logger.cpp: insert 1 when the calling thread has no
entry, otherwise increment its counter. -/
def addIndent (st : CLogChannelRegistrySingleton) (tid : Nat) :
    CLogChannelRegistrySingleton :=
  match st.m_indents tid with
  | none =>
    { st with m_indents := fun t => if t = tid then some 1 else st.m_indents t }
  | some n =>
    { st with m_indents := fun t => if t = tid then some (n + 1) else st.m_indents t }

/-- removeIndent from logger.cpp: a present positive counter is
decremented, and a counter that is (or becomes) zero is erased from the
map; an absent entry is untouched. -/
def removeIndent (st : CLogChannelRegistrySingleton) (tid : Nat) :
    CLogChannelRegistrySingleton :=
  match st.m_indents tid with
  | none => st
  | some n =>
    if n - 1 = 0 then
      { st with m_indents := fun t => if t = tid then none else st.m_indents t }
    else
      { st with m_indents := fun t => if t = tid then some (n - 1) else st.m_indents t }

/-- getIndent from logger.cpp: an absent entry reads as zero. -/
def getIndent (st : CLogChannelRegistrySingleton) (tid : Nat) : Nat :=
  (st.m_indents tid).getD 0

/-- Modelled from the spec: addMetadata's implementation is absent from src
(only declared in logger.h); the spec says it adds a key to the calling
thread's metadata map, with insertion order preserved and values shadowing
on duplicate key. -/
def addMetadata (st : CLogChannelRegistrySingleton) (tid : Nat)
    (k : String) (v : JsonVal) : CLogChannelRegistrySingleton :=
  { st with
    m_metadata := fun t =>
      if t = tid then some (objInsert ((st.m_metadata tid).getD []) k v)
      else st.m_metadata t }

/-- Modelled from the spec: getMetadata's implementation is absent from src
(only declared in logger.h); the spec says it returns the current metadata
dict for the calling thread, so an absent entry reads as the empty map. -/
def getMetadata (st : CLogChannelRegistrySingleton) (tid : Nat) : JsonObj :=
  (st.m_metadata tid).getD []

/-- reset from logger.cpp: clears sinks, filters and indents, sets the
default level to off, disables thread-id logging, clears the service name
and reinstalls the standard formatter.  The body touches no other field. -/
def reset (st : CLogChannelRegistrySingleton) :
    CLogChannelRegistrySingleton :=
  { st with
    m_sinks := []
    m_filters := []
    m_defaultLevel := .off
    m_doThreadLog := false
    m_serviceName := ""
    m_indents := fun _ => none
    m_formatter := some .std }

end CLogChannelRegistrySingleton

/-- The CLogEntry constructor from logger.cpp: channel, level, message and
map data come from the call, while the timestamp is stamped, the service
name and the calling thread's indent depth are snapshotted from the
registry, and the thread id is the caller's. -/
def mkLogEntry (st : CLogChannelRegistrySingleton) (tid : Nat)
    (timestamp : String) (ch : String) (lvl : ELogLevels) (msg : String)
    (mapData : JsonObj) : CLogEntry where
  channel := ch
  level := lvl
  message := msg
  timestamp := timestamp
  serviceName := st.getServiceName
  nIndent := st.getIndent tid
  threadId := tid
  mapData := mapData

/-- MAX_CHANNEL_LENGTH from logger.h. -/
def MAX_CHANNEL_LENGTH : Nat := 5

/-- INDENT_VALUE from logger.h, the string for a single indent. -/
def INDENT_VALUE : String := "  "

/-- std::string::resize(n, ' '): truncate when longer than n, pad with
spaces when shorter. -/
def resizeString (s : String) (n : Nat) : String :=
  if s.length ≤ n then s ++ String.mk (List.replicate (n - s.length) ' ')
  else String.mk (s.data.take n)

/-- CStdLogFormatter::getHeader from logger.cpp: timestamp, the service
name in angle brackets when set, the channel resized to the display width,
the 4-character level, the thread id when thread-id logging is enabled in
the registry at format time, and the indent prefix. -/
def CStdLogFormatter.getHeader (reg : CLogChannelRegistrySingleton)
    (e : CLogEntry) : String :=
  let ts := e.timestamp
  let withService :=
    if e.serviceName = "" then ts else ts ++ " <" ++ e.serviceName ++ ">"
  let ch := resizeString e.channel MAX_CHANNEL_LENGTH
  let base := withService ++ " [" ++ ch ++ ":" ++ levelDisplayString e.level
  let withTid :=
    if reg.threadIDEnabled then base ++ ":" ++ toString e.threadId else base
  withTid ++ "] " ++ String.join (List.replicate e.nIndent INDENT_VALUE)

/-- CStdLogFormatter::formatEntry from logger.cpp: one header-prefixed line
per newline-separated message piece, then one header-prefixed key: value
line per map-data entry. -/
def CStdLogFormatter.formatEntry (reg : CLogChannelRegistrySingleton)
    (e : CLogEntry) : List String :=
  let format := CStdLogFormatter.getHeader reg e
  (split e.message '\n').map (fun line => format ++ line ++ "\n") ++
    e.mapData.map (fun kv => format ++ kv.1 ++ ": " ++ dumpVal kv.2 ++ "\n")

/-- The JSON object assembled by CJSONLogFormatter::formatEntry: the entry's
map data with the fixed fields written over it, then the three conditional
fields.  The thread-id flag is read from the registry at format time, the
service name from the entry snapshot. -/
def jsonEntryObj (reg : CLogChannelRegistrySingleton) (e : CLogEntry) :
    JsonObj :=
  let j := objInsert e.mapData "channel" (.str e.channel)
  let j := objInsert j "level_str" (.str (LevelToHumanString e.level))
  let j := objInsert j "timestamp" (.str e.timestamp)
  let j := objInsert j "num_indent" (.num e.nIndent)
  let j := if e.message = "" then j else objInsert j "message" (.str e.message)
  let j :=
    if reg.threadIDEnabled then
      objInsert j "thread_id" (.str (toString e.threadId))
    else j
  if e.serviceName = "" then j
  else objInsert j "service_name" (.str e.serviceName)

/-- CJSONLogFormatter::formatEntry from logger.cpp: a single line holding
the serialized object followed by a newline. -/
def CJSONLogFormatter.formatEntry (reg : CLogChannelRegistrySingleton)
    (e : CLogEntry) : List String :=
  [dumpJson (jsonEntryObj reg e) ++ "\n"]

section Helpers

open CLogChannelRegistrySingleton

/-- Every level other than off has a positive ordinal. -/
theorem ord_pos (l : ELogLevels) (h : l ≠ ELogLevels.off) : 0 < l.ord := by
  cases l <;> simp_all [ELogLevels.ord]

/-- Looking up the key just written into a JSON object yields the written
value. -/
theorem jsonLookup_objInsert_self (o : JsonObj) (k : String) (v : JsonVal) :
    jsonLookup (objInsert o k v) k = some v := by
  induction o with
  | nil => simp [objInsert, jsonLookup]
  | cons kv rest ih =>
    obtain ⟨k0, v0⟩ := kv
    by_cases h : k0 = k <;> simp [objInsert, jsonLookup, h, ih]

/-- Writing one key into a JSON object leaves lookups of other keys
unchanged. -/
theorem jsonLookup_objInsert_ne (o : JsonObj) (k k' : String) (v : JsonVal)
    (h : k' ≠ k) : jsonLookup (objInsert o k v) k' = jsonLookup o k' := by
  have h2 : ¬(k = k') := fun hh => h hh.symm
  induction o with
  | nil => simp [objInsert, jsonLookup, h2]
  | cons kv rest ih =>
    obtain ⟨k0, v0⟩ := kv
    by_cases h0 : k0 = k
    · subst h0
      simp [objInsert, jsonLookup, h2]
    · simp [objInsert, jsonLookup, h0, ih]

/-- Adding an indent raises the calling thread's depth by exactly one. -/
theorem getIndent_addIndent (st : CLogChannelRegistrySingleton) (tid : Nat) :
    (st.addIndent tid).getIndent tid = st.getIndent tid + 1 := by
  cases h : st.m_indents tid <;> simp [addIndent, getIndent, h]

/-- Removing an indent lowers the calling thread's depth by one, floored at
zero. -/
theorem getIndent_removeIndent (st : CLogChannelRegistrySingleton)
    (tid : Nat) : (st.removeIndent tid).getIndent tid = st.getIndent tid - 1 := by
  cases h : st.m_indents tid with
  | none => simp [removeIndent, getIndent, h]
  | some n =>
    by_cases h1 : n - 1 = 0
    · simp [removeIndent, getIndent, h, h1]
    · simp [removeIndent, getIndent, h, h1]

/-- Iterating addIndent n times raises the depth by n. -/
theorem getIndent_addIndent_iterate (st : CLogChannelRegistrySingleton)
    (tid n : Nat) :
    (((fun s : CLogChannelRegistrySingleton => s.addIndent tid)^[n]) st).getIndent tid =
      st.getIndent tid + n := by
  induction n with
  | zero => simp
  | succ m ih =>
    rw [Function.iterate_succ_apply', getIndent_addIndent, ih]
    omega

/-- Iterating removeIndent n times lowers the depth by n, floored at
zero. -/
theorem getIndent_removeIndent_iterate (st : CLogChannelRegistrySingleton)
    (tid n : Nat) :
    (((fun s : CLogChannelRegistrySingleton => s.removeIndent tid)^[n]) st).getIndent tid =
      st.getIndent tid - n := by
  induction n with
  | zero => simp
  | succ m ih =>
    rw [Function.iterate_succ_apply', getIndent_removeIndent, ih]
    omega

end Helpers

section ClaimTheorems

open CLogChannelRegistrySingleton

/-- C1: for every channel and every level other than off, filter answers
true exactly when the message level's ordinal is at most the ordinal of the
configured level (the table entry for the channel when present, the default
level otherwise); in particular a configured level of off rejects every
such message level. -/
theorem filter_ordinal_correct (st : CLogChannelRegistrySingleton)
    (ch : String) (lvl : ELogLevels) (h : lvl ≠ ELogLevels.off) :
    (st.filter ch lvl = Except.ok true ↔
      lvl.ord ≤ (st.configuredLevel ch).ord) ∧
    (st.configuredLevel ch = ELogLevels.off →
      st.filter ch lvl = Except.ok false) := by
  constructor
  · simp [filter, h, ge_iff_le]
  · intro hL
    have hp := ord_pos lvl h
    simp only [filter, if_neg h, hL, Except.ok.injEq]
    rw [decide_eq_false_iff_not]
    have hoff : ELogLevels.ord ELogLevels.off = 0 := rfl
    simp only [ge_iff_le, hoff]
    omega

/-- Witness for C1 at a concrete registry, channel and level. -/
theorem filter_ordinal_correct_w :
    (ELogLevels.info ≠ ELogLevels.off) ∧
    ((initialRegistry.filter "X" ELogLevels.info = Except.ok true ↔
        (ELogLevels.info).ord ≤ (initialRegistry.configuredLevel "X").ord) ∧
      (initialRegistry.configuredLevel "X" = ELogLevels.off →
        initialRegistry.filter "X" ELogLevels.info = Except.ok false)) :=
  ⟨by decide, filter_ordinal_correct initialRegistry "X" ELogLevels.info (by decide)⟩

/-- C4: ParseLevel is a left inverse of LevelToHumanString on all 11
levels, and it raises InvalidLevelSpec exactly on the strings that are not
one of the 11 lowercase names. -/
theorem parseLevel_roundtrip_and_rejects :
    (∀ l : ELogLevels, ParseLevel (LevelToHumanString l) = Except.ok l) ∧
    (∀ s : String,
      ParseLevel s = Except.error LogErr.invalidLevelSpec ↔ s ∉ levelNames) := by
  constructor
  · intro l; cases l <;> rfl
  · intro s
    constructor
    · intro hp hmem
      fin_cases hmem <;> exact absurd hp (by decide)
    · intro hnot
      simp only [levelNames, List.mem_cons, List.not_mem_nil, or_false,
        not_or] at hnot
      obtain ⟨n1, n2, n3, n4, n5, n6, n7, n8, n9, n10, n11⟩ := hnot
      simp [ParseLevel, n1, n2, n3, n4, n5, n6, n7, n8, n9, n10, n11]

/-- Witness for C4 on a concrete unrecognized string. -/
theorem parseLevel_roundtrip_and_rejects_w :
    ParseLevel "bogus" = Except.error LogErr.invalidLevelSpec :=
  (parseLevel_roundtrip_and_rejects.2 "bogus").mpr (by decide)

/-- C5: asking filter about the off pseudo-level raises the
logging-to-off-disallowed condition for every registry state and channel,
never returning a boolean. -/
theorem filter_off_raises (st : CLogChannelRegistrySingleton) (ch : String) :
    st.filter ch ELogLevels.off = Except.error LogErr.loggingToOffDisallowed := by
  simp [filter]

/-- C8: for any thread, n addIndent calls followed by n removeIndent calls
restore the depth that held before; a single removeIndent lowers the depth
by one floored at zero, so the depth never goes negative and removing at
depth zero leaves it at zero. -/
theorem indent_balance (st : CLogChannelRegistrySingleton) (tid n : Nat) :
    (((fun s : CLogChannelRegistrySingleton => s.removeIndent tid)^[n])
        (((fun s : CLogChannelRegistrySingleton => s.addIndent tid)^[n]) st)).getIndent tid =
      st.getIndent tid ∧
    (st.removeIndent tid).getIndent tid = st.getIndent tid - 1 ∧
    (st.getIndent tid = 0 → (st.removeIndent tid).getIndent tid = 0) := by
  refine ⟨?_, getIndent_removeIndent st tid, ?_⟩
  · rw [getIndent_removeIndent_iterate, getIndent_addIndent_iterate]
    omega
  · intro h0
    rw [getIndent_removeIndent, h0]

/-- Witness for C8 at the initial registry and a concrete thread. -/
theorem indent_balance_w :
    (initialRegistry.getIndent 0 = 0) ∧
    (initialRegistry.removeIndent 0).getIndent 0 = 0 :=
  ⟨rfl, (indent_balance initialRegistry 0 2).2.2 rfl⟩

/-- A registry with a previously installed configuration, used to exhibit
that setupFilters is not atomic on a default-level error. -/
def stC2 : CLogChannelRegistrySingleton :=
  { initialRegistry with
    m_filters := [("X", ELogLevels.error)]
    m_defaultLevel := ELogLevels.info }

/-- C2 counterexample: a valid filter spec followed by an invalid
default-level spec raises InvalidLevelSpec, yet the previously installed
filter table has already been replaced by the new one, so the call is not
atomic on error. -/
theorem setupFilters_not_atomic_cex :
    (stC2.setupFilters "CH:debug" "bogus").1 = some LogErr.invalidLevelSpec ∧
    (stC2.setupFilters "CH:debug" "bogus").2.m_filters =
      [("CH", ELogLevels.debug)] ∧
    stC2.m_filters = [("X", ELogLevels.error)] ∧
    (stC2.setupFilters "CH:debug" "bogus").2.m_defaultLevel = ELogLevels.info := by
  refine ⟨by decide, by decide, rfl, by decide⟩

/-- C2 amended: an invalid filter spec raises before anything is installed
and leaves the whole state unchanged, and an invalid default-level spec
leaves the default level unchanged, but by then the filter table has
already been replaced by the newly parsed one. -/
theorem setupFilters_error_frame (st : CLogChannelRegistrySingleton)
    (fs ds : String) :
    (∀ e, parseFilterSpec fs = Except.error e →
      st.setupFilters fs ds = (some e, st)) ∧
    (∀ fm e, parseFilterSpec fs = Except.ok fm →
      ParseLevel ds = Except.error e →
      st.setupFilters fs ds = (some e, { st with m_filters := fm })) := by
  constructor
  · intro e h
    simp [setupFilters, h]
  · intro fm e h1 h2
    simp [setupFilters, h1, h2]

/-- Witness for C2 on a concrete malformed filter spec. -/
theorem setupFilters_error_frame_w :
    parseFilterSpec "A:b:c" = Except.error LogErr.invalidFilterSpec ∧
    initialRegistry.setupFilters "A:b:c" "info" =
      (some LogErr.invalidFilterSpec, initialRegistry) :=
  ⟨by decide,
    (setupFilters_error_frame initialRegistry "A:b:c" "info").1 _ (by decide)⟩

/-- Success of the parseFilterSpec loop over a token list does not depend
on the accumulator, and holds exactly when every token splits into two
colon-separated parts whose second names a level. -/
theorem parseTokens_ok_iff (toks : List String) (acc : FilterMap) :
    (∃ fm, parseTokens toks acc = Except.ok fm) ↔
      ∀ tok ∈ toks, ∃ ch lv l,
        split tok ':' = [ch, lv] ∧ ParseLevel lv = Except.ok l := by
  induction toks generalizing acc with
  | nil => simp [parseTokens]
  | cons tok rest ih =>
    rcases hs : split tok ':' with _ | ⟨a, _ | ⟨b, _ | ⟨c, t⟩⟩⟩
    · constructor
      · intro hok
        obtain ⟨fm, hfm⟩ := hok
        simp [parseTokens, hs] at hfm
      · intro hall
        obtain ⟨ch, lv, l, hcl, hpl⟩ := hall tok (List.mem_cons_self tok rest)
        rw [hs] at hcl
        exact absurd hcl (by simp)
    · constructor
      · intro hok
        obtain ⟨fm, hfm⟩ := hok
        simp [parseTokens, hs] at hfm
      · intro hall
        obtain ⟨ch, lv, l, hcl, hpl⟩ := hall tok (List.mem_cons_self tok rest)
        rw [hs] at hcl
        exact absurd hcl (by simp)
    · cases hp : ParseLevel b with
      | ok l =>
        have hstep :
            parseTokens (tok :: rest) acc = parseTokens rest (mapInsert acc a l) := by
          simp [parseTokens, hs, hp]
        rw [hstep, ih (mapInsert acc a l), List.forall_mem_cons]
        constructor
        · intro hrest
          exact ⟨⟨a, b, l, hs, hp⟩, hrest⟩
        · intro hand
          exact hand.2
      | error e =>
        constructor
        · intro hok
          obtain ⟨fm, hfm⟩ := hok
          simp [parseTokens, hs, hp] at hfm
        · intro hall
          obtain ⟨ch, lv, l, hcl, hpl⟩ := hall tok (List.mem_cons_self tok rest)
          rw [hs] at hcl
          simp only [List.cons.injEq, and_true] at hcl
          obtain ⟨rfl, rfl⟩ := hcl
          rw [hp] at hpl
          exact absurd hpl (by simp)
    · constructor
      · intro hok
        obtain ⟨fm, hfm⟩ := hok
        simp [parseTokens, hs] at hfm
      · intro hall
        obtain ⟨ch, lv, l, hcl, hpl⟩ := hall tok (List.mem_cons_self tok rest)
        rw [hs] at hcl
        exact absurd hcl (by simp)

/-- C3 counterexample: the token of the spec consisting of a colon followed
by a level name has an empty channel part, yet the call succeeds, mapping
the empty channel name to that level and raising nothing. -/
theorem parseFilterSpec_empty_channel_cex :
    parseFilterSpec ":info" = Except.ok [("", ELogLevels.info)] ∧
    (initialRegistry.setupFilters ":info" "error").1 = none := by
  refine ⟨by decide, by decide⟩

/-- C3 amended: for a non-empty spec the call succeeds exactly when every
comma-separated token splits, with the getline semantics of the source
(which drops a trailing empty field), into exactly two colon-separated
parts whose second part names a recognized level.  An empty channel part is
accepted; an empty level part fails only because the trailing delimiter
makes the split have a single part; an unknown level name raises
InvalidLevelSpec rather than InvalidFilterSpec. -/
theorem parseFilterSpec_ok_iff (spec : String) (h : spec ≠ "") :
    (∃ fm, parseFilterSpec spec = Except.ok fm) ↔
      ∀ tok ∈ split spec ',', ∃ ch lv l,
        split tok ':' = [ch, lv] ∧ ParseLevel lv = Except.ok l := by
  unfold parseFilterSpec
  rw [if_neg h]
  exact parseTokens_ok_iff (split spec ',') []

/-- Witness for C3 on a concrete well-formed spec. -/
theorem parseFilterSpec_ok_iff_w :
    ∃ fm, parseFilterSpec "A:info" = Except.ok fm :=
  (parseFilterSpec_ok_iff "A:info" (by decide)).mpr (by
    intro tok htok
    have e0 : split "A:info" ',' = ["A:info"] := by decide
    rw [e0] at htok
    simp only [List.mem_singleton] at htok
    subst htok
    exact ⟨"A", "info", ELogLevels.info, by decide, by decide⟩)

/-- An entry whose caller-supplied metadata already holds a message key
while the message itself is empty. -/
def eC6 : CLogEntry where
  channel := "APP"
  level := .warning
  message := ""
  timestamp := "TS"
  serviceName := ""
  nIndent := 0
  threadId := 7
  mapData := [("message", JsonVal.str "stale")]

/-- C6 counterexample: the structured formatter starts from the metadata
map, so a metadata entry named message survives into the output object even
though the entry's message is empty — the claimed equivalence between
presence of the message field and non-emptiness of the message fails. -/
theorem json_formatter_message_iff_cex :
    (jsonLookup (jsonEntryObj initialRegistry eC6) "message").isSome = true ∧
    eC6.message = "" ∧
    CJSONLogFormatter.formatEntry initialRegistry eC6 =
      [dumpJson (jsonEntryObj initialRegistry eC6) ++ "\n"] := by
  refine ⟨by decide, rfl, rfl⟩

/-- C6 amended: the structured formatter returns exactly one
newline-terminated line serializing one object; that object always carries
channel, level_str (the lowercase full level name), timestamp and
num_indent; it carries message exactly when the message is non-empty or the
metadata map itself has a message key, thread_id exactly when thread-id
logging is enabled at format time or the metadata map has a thread_id key,
and service_name exactly when the entry's service-name snapshot is
non-empty or the metadata map has a service_name key; every other key is
looked up unchanged from the metadata map. -/
theorem json_formatter_fields (reg : CLogChannelRegistrySingleton)
    (e : CLogEntry) :
    CJSONLogFormatter.formatEntry reg e =
      [dumpJson (jsonEntryObj reg e) ++ "\n"] ∧
    jsonLookup (jsonEntryObj reg e) "channel" = some (.str e.channel) ∧
    jsonLookup (jsonEntryObj reg e) "level_str" =
      some (.str (LevelToHumanString e.level)) ∧
    jsonLookup (jsonEntryObj reg e) "timestamp" = some (.str e.timestamp) ∧
    jsonLookup (jsonEntryObj reg e) "num_indent" = some (.num e.nIndent) ∧
    ((jsonLookup (jsonEntryObj reg e) "message").isSome ↔
      (e.message ≠ "" ∨ (jsonLookup e.mapData "message").isSome)) ∧
    ((jsonLookup (jsonEntryObj reg e) "thread_id").isSome ↔
      (reg.threadIDEnabled = true ∨
        (jsonLookup e.mapData "thread_id").isSome)) ∧
    ((jsonLookup (jsonEntryObj reg e) "service_name").isSome ↔
      (e.serviceName ≠ "" ∨ (jsonLookup e.mapData "service_name").isSome)) ∧
    (∀ k, k ∉ ["channel", "level_str", "timestamp", "num_indent",
        "message", "thread_id", "service_name"] →
      jsonLookup (jsonEntryObj reg e) k = jsonLookup e.mapData k) := by
  refine ⟨rfl, ?_, ?_, ?_, ?_, ?_, ?_, ?_, ?_⟩ <;>
    [skip; skip; skip; skip; skip; skip; skip; intro k hk] <;>
    by_cases hm : e.message = "" <;>
    by_cases ht : reg.threadIDEnabled <;>
    by_cases hsv : e.serviceName = "" <;>
    simp_all [jsonEntryObj, jsonLookup_objInsert_self, jsonLookup_objInsert_ne]

/-- Witness for C6: a key outside the fixed field set is looked up
unchanged from the metadata map, here on a concrete entry. -/
theorem json_formatter_fields_w :
    jsonLookup (jsonEntryObj initialRegistry eC6) "extra" =
      jsonLookup eC6.mapData "extra" :=
  (json_formatter_fields initialRegistry eC6).2.2.2.2.2.2.2.2 "extra" (by decide)

/-- The entry used to exhibit that formatting reads the thread-id flag at
format time. -/
def eC7 : CLogEntry := mkLogEntry initialRegistry 7 "TS" "CH" .info "m" []

/-- A registry that differs from the initial one only in the thread-id
flag. -/
def rC7tid : CLogChannelRegistrySingleton :=
  { initialRegistry with m_doThreadLog := true }

/-- A registry that differs from the initial one only in the service
name. -/
def rC7svc : CLogChannelRegistrySingleton :=
  { initialRegistry with m_serviceName := "SVC" }

/-- C7 counterexample: flipping the process-wide thread-id flag between
entry creation and formatting changes the structured formatter's output for
the very same entry, so the flag is read at format time, not captured in
the entry snapshot. -/
theorem formatter_format_time_flag_cex :
    CJSONLogFormatter.formatEntry initialRegistry eC7 ≠
      CJSONLogFormatter.formatEntry rC7tid eC7 ∧
    CStdLogFormatter.formatEntry initialRegistry eC7 ≠
      CStdLogFormatter.formatEntry rC7tid eC7 := by
  refine ⟨by decide, by decide⟩

/-- C7 amended: for a fixed entry snapshot both formatters depend on the
format-time registry state only through the thread-id flag; in particular
changing the registry's service name between entry creation and formatting
does not change the output, because the service name used is the entry's
snapshot. -/
theorem formatters_fixed_entry_threadflag (e : CLogEntry)
    (r r2 : CLogChannelRegistrySingleton)
    (h : r.m_doThreadLog = r2.m_doThreadLog) :
    CStdLogFormatter.formatEntry r e = CStdLogFormatter.formatEntry r2 e ∧
    CJSONLogFormatter.formatEntry r e = CJSONLogFormatter.formatEntry r2 e := by
  have ht : r.threadIDEnabled = r2.threadIDEnabled := h
  constructor
  · simp [CStdLogFormatter.formatEntry, CStdLogFormatter.getHeader, ht]
  · simp [CJSONLogFormatter.formatEntry, jsonEntryObj, ht]

/-- Witness for C7: a format-time service-name change leaves both
formatters' output for a fixed entry unchanged. -/
theorem formatters_fixed_entry_threadflag_w :
    (rC7svc.m_doThreadLog = initialRegistry.m_doThreadLog) ∧
    (CStdLogFormatter.formatEntry rC7svc eC7 =
        CStdLogFormatter.formatEntry initialRegistry eC7 ∧
      CJSONLogFormatter.formatEntry rC7svc eC7 =
        CJSONLogFormatter.formatEntry initialRegistry eC7) :=
  ⟨rfl, formatters_fixed_entry_threadflag eC7 rC7svc initialRegistry rfl⟩

/-- C10: reset clears the sink list, filter table, service name, thread-id
flag and every per-thread indent counter, sets the default level to off and
reinstalls the standard formatter, while the per-thread metadata table and
the metadata-enabled flag are untouched, so metadata added before reset is
still returned by getMetadata afterwards. -/
theorem reset_frame (st : CLogChannelRegistrySingleton) :
    st.reset.m_metadata = st.m_metadata ∧
    st.reset.m_doMetadata = st.m_doMetadata ∧
    st.reset.m_sinks = [] ∧
    st.reset.m_filters = [] ∧
    st.reset.m_defaultLevel = ELogLevels.off ∧
    st.reset.m_doThreadLog = false ∧
    st.reset.m_serviceName = "" ∧
    st.reset.m_indents = (fun _ => none) ∧
    st.reset.m_formatter = some FormatterKind.std ∧
    ∀ tid k v,
      ((st.addMetadata tid k v).reset).getMetadata tid =
        (st.addMetadata tid k v).getMetadata tid :=
  ⟨rfl, rfl, rfl, rfl, rfl, rfl, rfl, rfl, rfl, fun _ _ _ => rfl⟩

end ClaimTheorems

end Alog
